import Mathlib

/-!
# WifiShare — verification of the file-transfer core

Shallow embedding of the WifiShare file-transfer logic:
`FileTransferService` (chunk planning, acknowledgement / retry, receive
buffers, filename sanitization) from `src/pages/DesktopHome.tsx`,
`WebRTCService.send` / `createError`, `SignalingService.createError`, the
transfer / WebRTC configuration from the config module, and the relay
websocket server's `handleMessage`.

JavaScript `Map`s are embedded as association lists, `ArrayBuffer`s as
`List Nat` (byte lists), strings as Lean `String` or `List Char` where
character-level reasoning is needed.  SHA-256 (an external Web Crypto
primitive) is a parameter `hash : List Nat → String` of every function
that digests data.  `Date.now()` and `crypto.randomUUID()` are external
inputs and appear as explicit parameters.  A JavaScript statement that
throws a `TypeError` (an out-of-range element access followed by a
property read) is embedded as an `Option`-valued result, `none` standing
for the throw.
-/

namespace WifiShare

/-- The `TransferErrorCode` from `src/types/index.ts`. -/
inductive TransferErrorCode where
  | CONNECTION_FAILED
  | PEER_UNREACHABLE
  | FILE_TOO_LARGE
  | INVALID_FILE_TYPE
  | NETWORK_INTERRUPTED
  | CHECKSUM_MISMATCH
  | TIMEOUT
  | CANCELLED
  | SIGNALING_FAILED
  | RATE_LIMITED
  | UNKNOWN
deriving DecidableEq, BEq, Repr

/-- The `ERROR_MESSAGES` from the config module (localized French strings). -/
def ERROR_MESSAGES : TransferErrorCode → String
  | .CONNECTION_FAILED => "Impossible de se connecter à l\x27appareil distant"
  | .PEER_UNREACHABLE => "L\x27appareil est inaccessible"
  | .FILE_TOO_LARGE => "Le fichier dépasse la taille maximale autorisée (100 MB)"
  | .INVALID_FILE_TYPE => "Ce type de fichier n\x27est pas pris en charge"
  | .NETWORK_INTERRUPTED => "La connexion réseau a été interrompue"
  | .CHECKSUM_MISMATCH => "Le fichier reçu est corrompu, veuillez réessayer"
  | .TIMEOUT => "La connexion a expiré"
  | .CANCELLED => "Le transfert a été annulé"
  | .SIGNALING_FAILED => "Impossible d\x27établir la connexion de signalisation"
  | .RATE_LIMITED => "Trop de requêtes, veuillez patienter"
  | .UNKNOWN => "Une erreur inattendue s\x27est produite"

/-- The `TransferError` from `src/types/index.ts`. -/
structure TransferError where
  code : TransferErrorCode
  message : String
  details : Option String
  timestamp : Nat
  recoverable : Bool
deriving DecidableEq, Repr

/-- The `Result` discriminated union from `src/types/index.ts`. -/
inductive Result (T : Type) (E : Type) where
  | ok (data : T)
  | err (error : E)
deriving DecidableEq, Repr

/-- The `FileTransferService.createError` (DesktopHome.tsx): `recoverable` is
false exactly for `FILE_TOO_LARGE`, `INVALID_FILE_TYPE` and
`CHECKSUM_MISMATCH`.  `Date.now()` is the `now` parameter. -/
def ftCreateError (code : TransferErrorCode) (details : Option String)
    (now : Nat) : TransferError :=
  { code := code
    message := ERROR_MESSAGES code
    details := details
    timestamp := now
    recoverable := code != TransferErrorCode.FILE_TOO_LARGE &&
      code != TransferErrorCode.INVALID_FILE_TYPE &&
      code != TransferErrorCode.CHECKSUM_MISMATCH }

/-- The `WebRTCService.createError`: `recoverable` is false exactly for
`FILE_TOO_LARGE` and `INVALID_FILE_TYPE` (note: `CHECKSUM_MISMATCH` is
*not* excluded here, unlike in `FileTransferService.createError`). -/
def webrtcCreateError (code : TransferErrorCode) (details : Option String)
    (now : Nat) : TransferError :=
  { code := code
    message := ERROR_MESSAGES code
    details := details
    timestamp := now
    recoverable := code != TransferErrorCode.FILE_TOO_LARGE &&
      code != TransferErrorCode.INVALID_FILE_TYPE }

/-- The `SignalingService.createError` (signalingService.ts): `recoverable`
is true exactly for `RATE_LIMITED`. -/
def signalingCreateError (code : TransferErrorCode) (details : Option String)
    (now : Nat) : TransferError :=
  { code := code
    message := ERROR_MESSAGES code
    details := details
    timestamp := now
    recoverable := code == TransferErrorCode.RATE_LIMITED }


/-! ## JavaScript `Map` as an association list -/

/-- The `Map.get`: first binding for the key, if any. -/
def mapFind {α β : Type} [DecidableEq α] (m : List (α × β)) (k : α) :
    Option β :=
  (m.find? (fun p => decide (p.1 = k))).map Prod.snd

/-- The `Map.set`: update the binding in place, or append a fresh one. -/
def mapSet {α β : Type} [DecidableEq α] (m : List (α × β)) (k : α) (v : β) :
    List (α × β) :=
  match m with
  | [] => [(k, v)]
  | p :: rest => if p.1 = k then (k, v) :: rest else p :: mapSet rest k v

/-- The `Map.delete`: drop every binding for the key. -/
def mapDelete {α β : Type} [DecidableEq α] (m : List (α × β)) (k : α) :
    List (α × β) :=
  m.filter (fun p => decide (p.1 ≠ k))

theorem mapFind_mapSet_self {α β : Type} [DecidableEq α]
    (m : List (α × β)) (k : α) (v : β) : mapFind (mapSet m k v) k = some v := by
  induction m with
  | nil => simp [mapFind, mapSet, List.find?]
  | cons p rest ih =>
    by_cases h : p.1 = k <;> simp [mapFind, mapSet, h, List.find?] at ih ⊢
    exact ih

theorem mapFind_mapSet_ne {α β : Type} [DecidableEq α]
    (m : List (α × β)) (k k2 : α) (v : β) (hne : k2 ≠ k) :
    mapFind (mapSet m k v) k2 = mapFind m k2 := by
  induction m with
  | nil => simp [mapFind, mapSet, List.find?, Ne.symm hne]
  | cons p rest ih =>
    by_cases h : p.1 = k
    · subst h
      simp [mapFind, mapSet, List.find?, Ne.symm hne]
    · simp only [mapSet, if_neg h]
      by_cases h2 : p.1 = k2
      · simp [mapFind, List.find?, h2]
      · simp [mapFind, List.find?, h2] at ih ⊢
        exact ih

theorem mapFind_mapDelete_self {α β : Type} [DecidableEq α]
    (m : List (α × β)) (k : α) : mapFind (mapDelete m k) k = none := by
  induction m with
  | nil => simp [mapFind, mapDelete]
  | cons p rest ih =>
    by_cases h : p.1 = k <;> simp_all [mapFind, mapDelete, List.find?]

/-! ## Configuration (`TRANSFER_CONFIG`, `FILE_VALIDATION_CONFIG`) -/

/-- The `TransferConfig` from `src/types/index.ts`. -/
structure TransferConfig where
  chunkSizeBytes : Nat
  maxRetries : Nat
  timeoutMs : Nat
  enableCompression : Bool

/-- The `TRANSFER_CONFIG` from the config module. -/
def TRANSFER_CONFIG : TransferConfig :=
  { chunkSizeBytes := 16 * 1024
    maxRetries := 3
    timeoutMs := 30000
    enableCompression := false }

/-! ## FileTransferService: data model -/

/-- A byte buffer (`ArrayBuffer`). -/
abbrev Bytes := List Nat

/-- The `ChunkInfo` from DesktopHome.tsx (the `end` field is the exclusive
upper bound of the byte range). -/
structure ChunkInfo where
  index : Nat
  start : Nat
  «end» : Nat
  size : Nat
deriving DecidableEq, Repr

/-- The `ChunkData` from `src/types/index.ts`. -/
structure ChunkData where
  index : Nat
  data : Bytes
  checksum : String
  isLast : Bool
deriving DecidableEq, Repr

/-- The `ChunkAck` from `src/types/index.ts`. -/
structure ChunkAck where
  index : Nat
  checksum : String
  success : Bool
deriving DecidableEq, Repr

/-- The `FileMetadata` from `src/types/index.ts`. -/
structure FileMetadata where
  name : String
  size : Nat
  type : String
  lastModified : Nat
  checksum : Option String
deriving DecidableEq, Repr

/-- A `File` handle: name, MIME type, last-modified stamp and content
bytes (`file.size` is the length of the content). -/
structure JSFile where
  name : String
  type : String
  lastModified : Nat
  content : Bytes
deriving DecidableEq, Repr

/-- A `Blob` (content bytes plus MIME type). -/
structure Blob where
  data : Bytes
  type : String
deriving DecidableEq, Repr

/-- The `TransferContext` from DesktopHome.tsx.  `retryCount` is the
`Map<number, number>` of per-chunk retry counters. -/
structure TransferContext where
  transferId : String
  file : JSFile
  metadata : FileMetadata
  chunks : List ChunkInfo
  currentChunk : Nat
  transferredBytes : Nat
  startTime : Nat
  checksum : String
  retryCount : List (Nat × Nat)
deriving DecidableEq, Repr

/-- The mutable state of a `FileTransferService` instance:
`activeTransfers` and `receivingBuffers`.  A receiving buffer is a
JavaScript array that may contain holes (`none`) created by
out-of-order index assignment. -/
structure FTState where
  activeTransfers : List (String × TransferContext)
  receivingBuffers : List (String × List (Option Bytes))
deriving DecidableEq, Repr


/-! ## Filename sanitization (`FileTransferService.sanitizeFileName`)

The sanitizer works character by character, so it is embedded over
`List Char`.  `FILE_VALIDATION_CONFIG.sanitizeFileName` is `true` in the
config module. -/

/-- The `FILE_VALIDATION_CONFIG` (the fields the embedded code reads). -/
structure FileValidationConfig where
  maxSizeBytes : Nat
  sanitize : Bool

/-- The `FILE_VALIDATION_CONFIG` from the config module.  The MIME
allow-list contains `application/octet-stream`, which makes
`isAllowedMimeType` return `true` for every input (first branch), so the
list itself is not needed by the embedding. -/
def FILE_VALIDATION_CONFIG : FileValidationConfig :=
  { maxSizeBytes := 100 * 1024 * 1024
    sanitize := true }

/-- The `String.replace(/\.\./g, ...)` with an empty replacement: the JS
global regex replace scans left to right, removing each non-overlapping
`..` and resuming after it. -/
def removeDotDot : List Char → List Char
  | '.' :: '.' :: rest => removeDotDot rest
  | c :: rest => c :: removeDotDot rest
  | [] => []

/-- The `s.lastIndexOf(c)` — `-1` when the character does not occur. -/
def jsLastIndexOf (s : List Char) (c : Char) : Int :=
  match s.reverse.findIdx? (fun d => d == c) with
  | some k => (s.length : Int) - 1 - (k : Int)
  | none => -1

/-- The `getFileExtension` from DesktopHome.tsx: the suffix from the last
dot, provided the last dot is not the first character. -/
def getFileExtension (filename : List Char) : List Char :=
  let lastDot := jsLastIndexOf filename ('.')
  if lastDot > 0 then filename.drop lastDot.toNat else []

/-- The `s.slice(0, e)` on a JS string: a negative end counts from the end
of the string, clamped at 0. -/
def jsSlice0 (s : List Char) (e : Int) : List Char :=
  if e < 0 then s.take (((s.length : Int) + e).toNat) else s.take e.toNat

/-- Fuel-driven core of decimal rendering (structurally recursive so
that concrete values reduce inside the kernel). -/
def natDigitsCore : Nat → Nat → List Char → List Char
  | 0, _, acc => acc
  | fuel + 1, n, acc =>
    let d := Char.ofNat (48 + n % 10)
    if n < 10 then d :: acc else natDigitsCore fuel (n / 10) (d :: acc)

/-- Decimal rendering of a `Nat` (the JS template interpolation of
`Date.now()` in the empty-name fallback). -/
def natDigits (n : Nat) : List Char := natDigitsCore (n + 1) n []

/-- The `FileTransferService.sanitizeFileName`.  `now` is `Date.now()`,
consumed only by the empty-name fallback. -/
def sanitizeFileName (now : Nat) (name : List Char) : List Char :=
  if !FILE_VALIDATION_CONFIG.sanitize then name
  else
    let s1 := ((name.filter (fun c => c != '\\')).filter
        (fun c => c != '/')).filter (fun c => c != Char.ofNat 0)
    let s2 := removeDotDot s1
    let stripped := s2.dropWhile (fun c => c == '.')
    let capped :=
      if stripped.length > 255 then
        let ext := getFileExtension stripped
        let baseName := jsSlice0 stripped (250 - (ext.length : Int))
        baseName ++ ext
      else stripped
    if capped = [] then ("file_").toList ++ natDigits now else capped

/-- The intermediate value of `sanitizeFileName` just before the length
cap (after separator/null removal, `..` removal and leading-dot
stripping). -/
def strippedName (name : List Char) : List Char :=
  (removeDotDot (((name.filter (fun c => c != '\\')).filter
      (fun c => c != '/')).filter (fun c => c != Char.ofNat 0))).dropWhile
    (fun c => c == '.')

/-- Does the character list contain two adjacent dots (the `..`
traversal sequence)? -/
def hasDotDot : List Char → Bool
  | [] => false
  | [_] => false
  | c :: d :: rest => (c == '.' && d == '.') || hasDotDot (d :: rest)


/-! ## FileTransferService: operations -/

/-- The `formatBytes` (used only inside human-readable `details` strings; the
JS original formats with floating-point `toFixed(2)` — here the integer
part only, which no claim depends on). -/
def formatBytes (bytes : Nat) : String :=
  if bytes = 0 then ("0 B")
  else
    let i := Nat.log 1024 bytes
    String.mk (natDigits (bytes / 1024 ^ i)) ++ " " ++
      (["B", "KB", "MB", "GB"].getD i (""))

/-- The `isAllowedMimeType`: the configured allow-list contains
`application/octet-stream`, so the first branch of the source function
accepts every MIME type. -/
def isAllowedMimeType (_mimeType : String) : Bool := true

/-- The `FileTransferService.validateFile`. -/
def validateFile (now : Nat) (file : JSFile) : Result FileMetadata TransferError :=
  if file.content.length > FILE_VALIDATION_CONFIG.maxSizeBytes then
    .err (ftCreateError .FILE_TOO_LARGE
      (some ("File size: " ++ formatBytes file.content.length ++ ", Max: " ++
        formatBytes FILE_VALIDATION_CONFIG.maxSizeBytes)) now)
  else
    let mimeType := if file.type = "" then ("application/octet-stream") else file.type
    if !isAllowedMimeType mimeType then
      .err (ftCreateError .INVALID_FILE_TYPE (some ("MIME type: " ++ mimeType)) now)
    else
      .ok { name := String.mk (sanitizeFileName now file.name.toList)
            size := file.content.length
            type := mimeType
            lastModified := file.lastModified
            checksum := none }

/-- The `Math.ceil(a / b)` for naturals (exact for the integer sizes the
code works with). -/
def ceilDiv (a b : Nat) : Nat := (a + b - 1) / b

/-- The chunk-plan loop of `FileTransferService.prepareTransfer`:
`totalChunks = Math.ceil(fileSize / chunkSize)` entries with
`start = i * chunkSize` and `end = min(start + chunkSize, fileSize)`. -/
def chunkPlan (fileSize chunkSize : Nat) : List ChunkInfo :=
  (List.range (ceilDiv fileSize chunkSize)).map (fun i =>
    let start := i * chunkSize
    let e := min (start + chunkSize) fileSize
    { index := i, start := start, «end» := e, size := e - start })

/-- The `FileTransferService.prepareTransfer`.  `transferId` is the
externally generated `crypto.randomUUID()` value, `hash` the external
SHA-256, `now` is `Date.now()`. -/
def prepareTransfer (hash : Bytes → String) (now : Nat) (transferId : String)
    (st : FTState) (file : JSFile) : Result String TransferError × FTState :=
  match validateFile now file with
  | .err e => (.err e, st)
  | .ok md =>
    let chunks := chunkPlan file.content.length TRANSFER_CONFIG.chunkSizeBytes
    let checksum := hash file.content
    let context : TransferContext :=
      { transferId := transferId
        file := file
        metadata := { md with checksum := some checksum }
        chunks := chunks
        currentChunk := 0
        transferredBytes := 0
        startTime := now
        checksum := checksum
        retryCount := [] }
    (.ok transferId,
     { st with activeTransfers := mapSet st.activeTransfers transferId context })

/-- The `file.slice(s, e)` followed by `arrayBuffer()`. -/
def sliceBytes (b : Bytes) (s e : Nat) : Bytes := (b.drop s).take (e - s)

/-- The `FileTransferService.getNextChunk`.  The method only reads the
`TransferContext`; the service state is returned unchanged.  The
`getD … ⟨0, 0, 0, 0⟩` fallback is unreachable: the preceding guard
ensures `currentChunk < chunks.length`. -/
def getNextChunk (hash : Bytes → String) (now : Nat) (st : FTState)
    (transferId : String) : Result (Option ChunkData) TransferError × FTState :=
  match mapFind st.activeTransfers transferId with
  | none => (.err (ftCreateError .UNKNOWN (some ("Transfer not found")) now), st)
  | some context =>
    if context.currentChunk ≥ context.chunks.length then (.ok none, st)
    else
      let chunkInfo := context.chunks.getD context.currentChunk ⟨0, 0, 0, 0⟩
      let buffer := sliceBytes context.file.content chunkInfo.start chunkInfo.«end»
      let checksum := hash buffer
      (.ok (some { index := chunkInfo.index
                   data := buffer
                   checksum := checksum
                   isLast := context.currentChunk == context.chunks.length - 1 }), st)

/-- The `FileTransferService.acknowledgeChunk`.  A `none` result embeds the
`TypeError` the source throws when a successful ack arrives with the
cursor already past the plan (`chunks[currentChunk]` is `undefined` and
`.size` is read from it); no state is mutated before that throw. -/
def acknowledgeChunk (now : Nat) (st : FTState) (transferId : String)
    (ack : ChunkAck) : Option (Result Unit TransferError) × FTState :=
  match mapFind st.activeTransfers transferId with
  | none => (some (.err (ftCreateError .UNKNOWN (some ("Transfer not found")) now)), st)
  | some context =>
    if !ack.success then
      let retries := (mapFind context.retryCount ack.index).getD 0
      if retries ≥ TRANSFER_CONFIG.maxRetries then
        (some (.err (ftCreateError .CHECKSUM_MISMATCH
          (some ("Chunk (" ++ String.mk (natDigits ack.index) ++ ") failed after (" ++
            String.mk (natDigits retries) ++ ") retries")) now)), st)
      else
        let context2 := { context with
          retryCount := mapSet context.retryCount ack.index (retries + 1) }
        (some (.ok ()),
         { st with activeTransfers := mapSet st.activeTransfers transferId context2 })
    else
      match context.chunks[context.currentChunk]? with
      | none => (none, st)
      | some chunkInfo =>
        let context2 := { context with
          transferredBytes := context.transferredBytes + chunkInfo.size
          currentChunk := context.currentChunk + 1
          retryCount := mapDelete context.retryCount ack.index }
        (some (.ok ()),
         { st with activeTransfers := mapSet st.activeTransfers transferId context2 })

/-- The `FileTransferService.startReceiving`: allocates an empty buffer. -/
def startReceiving (st : FTState) (transferId : String) : FTState :=
  { st with receivingBuffers := mapSet st.receivingBuffers transferId [] }

/-- JS sparse-array index assignment `a[i] = v`: in-range writes set the
slot, out-of-range writes extend the array, creating holes. -/
def listWrite (l : List (Option Bytes)) (i : Nat) (b : Bytes) :
    List (Option Bytes) :=
  if i < l.length then l.set i (some b)
  else l ++ List.replicate (i - l.length) none ++ [some b]

/-- The `FileTransferService.receiveChunk`: recompute the checksum, store
the bytes only on a match, and always return an ack carrying the
receiver-computed checksum.  Total — the source never throws here. -/
def receiveChunk (hash : Bytes → String) (st : FTState) (transferId : String)
    (chunk : ChunkData) : ChunkAck × FTState :=
  match mapFind st.receivingBuffers transferId with
  | none => ({ index := chunk.index, checksum := "", success := false }, st)
  | some buffer =>
    let computedChecksum := hash chunk.data
    let success := computedChecksum == chunk.checksum
    let st2 :=
      if success then
        { st with receivingBuffers := mapSet st.receivingBuffers transferId (listWrite buffer chunk.index chunk.data) }
      else st
    ({ index := chunk.index, checksum := computedChecksum, success := success }, st2)

/-- Concatenation of a hole-free receiving buffer in index order. -/
def bufConcat (chunks : List (Option Bytes)) : Bytes :=
  chunks.foldr (fun c acc => c.getD [] ++ acc) []

/-- The `FileTransferService.completeReceiving`.  A `none` result embeds the
`TypeError` the source throws when the buffer has a hole (the `for…of`
loop reads `.byteLength` from an `undefined` slot); nothing is mutated
before that throw, so the buffer is *not* freed on that path. -/
def completeReceiving (hash : Bytes → String) (now : Nat) (st : FTState)
    (transferId : String) (metadata : FileMetadata) (expectedChecksum : String) :
    Option (Result Blob TransferError) × FTState :=
  match mapFind st.receivingBuffers transferId with
  | none => (some (.err (ftCreateError .UNKNOWN (some ("No receiving buffer found")) now)), st)
  | some chunks =>
    if chunks.all Option.isSome then
      let combined := bufConcat chunks
      let finalChecksum := hash combined
      if finalChecksum != expectedChecksum then
        (some (.err (ftCreateError .CHECKSUM_MISMATCH
          (some ("Expected: " ++ expectedChecksum.take 16 ++ "..., Got: " ++
            finalChecksum.take 16 ++ "...")) now)),
         { st with receivingBuffers := mapDelete st.receivingBuffers transferId })
      else
        (some (.ok { data := combined, type := metadata.type }),
         { st with receivingBuffers := mapDelete st.receivingBuffers transferId })
    else (none, st)


/-! ## WebRTCService.send (direct backend) -/

/-- The observable state of an `RTCDataChannel`: its `readyState`, its
`bufferedAmount` in bytes, and whether the platform-level `send` call
would throw. -/
structure DataChannel where
  readyState : String
  bufferedAmount : Nat
  sendThrows : Bool
deriving DecidableEq, Repr

/-- The `WebRTCService.send`.  The second component records whether
`dataChannel.send` was invoked (data handed to the transport).  The
backpressure guard returns a recoverable error *before* invoking it;
an exception from the platform call is caught and also mapped to
`NETWORK_INTERRUPTED`. -/
def webrtcSend (channel : Option DataChannel) (now : Nat) :
    Result Unit TransferError × Bool :=
  match channel with
  | none =>
    (.err (webrtcCreateError .CONNECTION_FAILED (some ("Data channel not available")) now),
     false)
  | some ch =>
    if ch.readyState != "open" then
      (.err (webrtcCreateError .CONNECTION_FAILED (some ("Data channel not open")) now),
       false)
    else if ch.bufferedAmount > 16 * 1024 * 1024 then
      (.err (webrtcCreateError .NETWORK_INTERRUPTED (some ("Buffer full, slow down")) now),
       false)
    else if ch.sendThrows then
      (.err (webrtcCreateError .NETWORK_INTERRUPTED (some ("Failed to send data")) now),
       true)
    else (.ok (), true)

/-! ## Relay websocket server (`handleMessage`) -/

/-- A `pendingFiles` entry on the relay server.  `new Array(totalChunks)`
allocates an all-holes array. -/
structure PendingFile where
  name : String
  size : Nat
  chunks : List (Option Bytes)
  receivedChunks : Nat
  totalChunks : Nat
deriving DecidableEq, Repr

/-- A `sharedFiles` entry on the relay server. -/
structure SharedFile where
  name : String
  path : String
deriving DecidableEq, Repr

/-- The server state visible to `handleMessage` for one connection: the
client's `authenticated` flag and the `pendingFiles` / `sharedFiles`
maps. -/
structure RelayState where
  clientAuthenticated : Bool
  pendingFiles : List (String × PendingFile)
  sharedFiles : List (String × SharedFile)
deriving DecidableEq, Repr

/-- The optional fields of a `FileChunk` payload (`data` already
base64-decoded to bytes; JSON fields absent in the message are
`none`). -/
structure FileChunkMsg where
  fileId : Option String
  fileName : Option String
  fileSize : Option Nat
  chunkIndex : Option Nat
  totalChunks : Option Nat
  data : Option Bytes
deriving DecidableEq, Repr

/-- An incoming relay message: its `type` string, the optional
`sessionCode`, and the optional payload. -/
structure RelayMessage where
  type : String
  sessionCode : Option String
  payload : Option FileChunkMsg
deriving DecidableEq, Repr

/-- Observable effects of `handleMessage`: websocket replies, the
socket close, notifications to the main window, and the file written to
the downloads folder. -/
inductive RelayEffect where
  | authSuccess (clientId : String)
  | availableFiles (files : List (String × String))
  | authFailed (reason : String)
  | closeSocket
  | errorMsg (message : String)
  | fileStartAck (fileId : String)
  | progress (fileName : String) (percent : Nat)
  | fileChunkAck (fileId : String) (chunkIndex : Nat)
  | saveFile (name : String) (data : Bytes)
  | fileComplete (fileId : String) (savedAs : String)
  | fileReady (fileId : String) (fileName : String) (downloadUrl : String)
  | pong
  | notifyMain (event : String)
deriving DecidableEq, Repr

/-- The `handleFileStart`: `!fileId || !fileName || !fileSize || !totalChunks`
rejects missing fields and JS falsy values (empty string, zero). -/
def handleFileStart (st : RelayState) (p : FileChunkMsg) :
    RelayState × List RelayEffect :=
  if p.fileId.getD ("") = "" ∨ p.fileName.getD ("") = "" ∨
      p.fileSize.getD 0 = 0 ∨ p.totalChunks.getD 0 = 0 then
    (st, [.errorMsg ("Invalid file-start payload")])
  else
    let fid := p.fileId.getD ("")
    let total := p.totalChunks.getD 0
    (({ st with pendingFiles := mapSet st.pendingFiles fid { name := p.fileName.getD (""), size := p.fileSize.getD 0, chunks := List.replicate total none, receivedChunks := 0, totalChunks := total } }),
     [.fileStartAck fid])

/-- The `Math.round((r / t) * 100)` for naturals (round half up). -/
def roundPercent (r t : Nat) : Nat := (200 * r + t) / (2 * t)

/-- The `handleFileChunk`: `fileId === undefined || chunkIndex === undefined
|| !data` (an empty base64 string is falsy). -/
def handleFileChunk (st : RelayState) (p : FileChunkMsg) :
    RelayState × List RelayEffect :=
  if p.fileId.isNone ∨ p.chunkIndex.isNone ∨ p.data.getD [] = [] then
    (st, [.errorMsg ("Invalid file-chunk payload")])
  else
    let fid := p.fileId.getD ("")
    match mapFind st.pendingFiles fid with
    | none => (st, [.errorMsg ("Unknown file ID")])
    | some pending =>
      let idx := p.chunkIndex.getD 0
      let pending2 := { pending with
        chunks := listWrite pending.chunks idx (p.data.getD [])
        receivedChunks := pending.receivedChunks + 1 }
      (({ st with pendingFiles := mapSet st.pendingFiles fid pending2 }),
       [.progress pending.name (roundPercent pending2.receivedChunks pending.totalChunks),
        .fileChunkAck fid idx])

/-- The `handleFileEnd`: combines the received chunks
(`chunks.filter(Boolean)` skips holes), saves the file and frees the
`pendingFiles` entry.  Modelled from the spec for the filesystem part:
the downloads-folder path and the name-conflict numbering loop live
outside the repository (Node `fs`/`path` and the Electron `app`), so
the saved name is modelled as the pending file name. -/
def handleFileEnd (st : RelayState) (p : FileChunkMsg) :
    RelayState × List RelayEffect :=
  match p.fileId with
  | none => (st, [.errorMsg ("Unknown file ID")])
  | some fid =>
    match mapFind st.pendingFiles fid with
    | none => (st, [.errorMsg ("Unknown file ID")])
    | some pending =>
      let fileBuffer := (pending.chunks.filterMap id).flatten
      (({ st with pendingFiles := mapDelete st.pendingFiles fid }),
       [.saveFile pending.name fileBuffer,
        .fileComplete fid pending.name,
        .notifyMain ("file-received")])

/-- The `handleFileRequest`.  Modelled from the spec for the
`fs.existsSync` disk probe (external to the repository): entries in
`sharedFiles` are treated as present on disk. -/
def handleFileRequest (st : RelayState) (p : FileChunkMsg) :
    RelayState × List RelayEffect :=
  match p.fileId.bind (mapFind st.sharedFiles) with
  | none => (st, [.errorMsg ("File not found")])
  | some info =>
    (st, [.fileReady (p.fileId.getD ("")) info.name
      ("/api/download/" ++ p.fileId.getD (""))])

/-- The relay server's `handleMessage`.  A `none` result embeds the
`TypeError` thrown when a post-auth file handler destructures an absent
payload (caught by the caller, which answers `Invalid message format`);
every pre-auth path returns `some`.  The `auth` branch compares the
presented session code with the server's; every other message type is
rejected with `Not authenticated` until the flag is set. -/
def handleMessage (st : RelayState) (clientId : String) (msg : RelayMessage)
    (validSessionCode : String) : Option (RelayState × List RelayEffect) :=
  if msg.type = "auth" then
    if msg.sessionCode = some validSessionCode then
      some ({ st with clientAuthenticated := true },
        [.authSuccess clientId, .notifyMain ("client-connected"),
         .availableFiles (st.sharedFiles.map (fun q => (q.1, q.2.name)))])
    else
      some (st, [.authFailed ("Invalid session code"), .closeSocket])
  else if !st.clientAuthenticated then
    some (st, [.errorMsg ("Not authenticated")])
  else
    match msg.type, msg.payload with
    | "file-start", some p => some (handleFileStart st p)
    | "file-start", none => none
    | "file-chunk", some p => some (handleFileChunk st p)
    | "file-chunk", none => none
    | "file-end", some p => some (handleFileEnd st p)
    | "file-end", none => none
    | "file-request", some p => some (handleFileRequest st p)
    | "file-request", none => none
    | "ping", _ => some (st, [.pong])
    | _, _ => some (st, [])


/-! ## Fixtures for witnesses and counterexamples -/

/-- Concrete stand-in digest function used to instantiate theorems that
are universally quantified over the external SHA-256 at concrete
inputs. -/
def hashLen : Bytes → String := fun b => String.mk (natDigits b.length)

/-- A small concrete sender context: a 3-byte file split by a 2-byte
plan into chunks `[0,2)` and `[2,3)`. -/
def witnessCtx : TransferContext :=
  { transferId := "t"
    file := { name := "a.txt", type := "text/plain", lastModified := 0, content := [1, 2, 3] }
    metadata := { name := "a.txt", size := 3, type := "text/plain", lastModified := 0, checksum := none }
    chunks := chunkPlan 3 2
    currentChunk := 0
    transferredBytes := 0
    startTime := 0
    checksum := "c"
    retryCount := [] }

/-- A service state holding `witnessCtx` under id `"t"`. -/
def witnessSt : FTState :=
  { activeTransfers := [("t", witnessCtx)], receivingBuffers := [] }

/-! ## C7 — recoverability of constructed errors -/

/-- C7 counterexample: `SignalingService.createError` marks a
`SIGNALING_FAILED` error (constructed at its `Session not found` call
sites) non-recoverable, although the claim requires `recoverable = true`
for every code outside `{FILE_TOO_LARGE, INVALID_FILE_TYPE,
CHECKSUM_MISMATCH}`. -/
theorem signalingCreateError_counterexample :
    (signalingCreateError TransferErrorCode.SIGNALING_FAILED
      (some ("Session not found")) 0).code = TransferErrorCode.SIGNALING_FAILED ∧
    (signalingCreateError TransferErrorCode.SIGNALING_FAILED
      (some ("Session not found")) 0).recoverable = false := by
  constructor <;> rfl

/-- C7 (amended): each error constructor has its own recoverability
policy.  `FileTransferService.createError` is non-recoverable exactly on
`{FILE_TOO_LARGE, INVALID_FILE_TYPE, CHECKSUM_MISMATCH}`;
`WebRTCService.createError` only on `{FILE_TOO_LARGE,
INVALID_FILE_TYPE}` (its `CHECKSUM_MISMATCH` errors would be
recoverable); `SignalingService.createError` is recoverable only on
`RATE_LIMITED`.  `NETWORK_INTERRUPTED` and `RATE_LIMITED` are
recoverable in the file-transfer and WebRTC constructors. -/
theorem createError_recoverable_policy (code : TransferErrorCode)
    (details : Option String) (now : Nat) :
    ((ftCreateError code details now).recoverable = false ↔
      (code = TransferErrorCode.FILE_TOO_LARGE ∨
       code = TransferErrorCode.INVALID_FILE_TYPE ∨
       code = TransferErrorCode.CHECKSUM_MISMATCH)) ∧
    ((webrtcCreateError code details now).recoverable = false ↔
      (code = TransferErrorCode.FILE_TOO_LARGE ∨
       code = TransferErrorCode.INVALID_FILE_TYPE)) ∧
    ((signalingCreateError code details now).recoverable = true ↔
      code = TransferErrorCode.RATE_LIMITED) ∧
    (ftCreateError TransferErrorCode.NETWORK_INTERRUPTED details now).recoverable = true ∧
    (ftCreateError TransferErrorCode.RATE_LIMITED details now).recoverable = true ∧
    (webrtcCreateError TransferErrorCode.NETWORK_INTERRUPTED details now).recoverable = true ∧
    (webrtcCreateError TransferErrorCode.RATE_LIMITED details now).recoverable = true := by
  cases code <;>
      simp [ftCreateError, webrtcCreateError, signalingCreateError] <;>
    decide

/-! ## C9 — backpressure guard in WebRTCService.send -/

/-- C9: with an open data channel whose `bufferedAmount` exceeds 16 MiB,
`send` returns immediately with a recoverable `NETWORK_INTERRUPTED`
error and never hands the data to the transport. -/
theorem webrtcSend_backpressure (ch : DataChannel) (now : Nat)
    (hopen : ch.readyState = "open")
    (hbuf : ch.bufferedAmount > 16 * 1024 * 1024) :
    webrtcSend (some ch) now =
      (.err (webrtcCreateError TransferErrorCode.NETWORK_INTERRUPTED
        (some ("Buffer full, slow down")) now), false) ∧
    (webrtcCreateError TransferErrorCode.NETWORK_INTERRUPTED
      (some ("Buffer full, slow down")) now).recoverable = true := by
  refine ⟨?_, rfl⟩
  simp [webrtcSend, hopen, hbuf]

/-- C9 witness: the theorem applied to a concrete open channel one byte
over the 16 MiB threshold. -/
theorem webrtcSend_backpressure_witness :
    webrtcSend (some { readyState := "open", bufferedAmount := 16 * 1024 * 1024 + 1, sendThrows := false }) 0 =
      (.err (webrtcCreateError TransferErrorCode.NETWORK_INTERRUPTED
        (some ("Buffer full, slow down")) 0), false) ∧
    (webrtcCreateError TransferErrorCode.NETWORK_INTERRUPTED
      (some ("Buffer full, slow down")) 0).recoverable = true :=
  webrtcSend_backpressure
    { readyState := "open", bufferedAmount := 16 * 1024 * 1024 + 1, sendThrows := false }
    0 rfl (by norm_num)

/-! ## C10 — getNextChunk is read-only -/

/-- C10: `getNextChunk` never modifies the service state (so the cursor,
`transferredBytes`, retry counters and chunk plan are unchanged),
repeating the call yields the identical result, and for a known transfer
with the cursor inside the plan the returned chunk carries the index of
the chunk at the cursor. -/
theorem getNextChunk_frame (hash : Bytes → String) (now : Nat)
    (st : FTState) (transferId : String) :
    (getNextChunk hash now st transferId).2 = st ∧
    getNextChunk hash now (getNextChunk hash now st transferId).2 transferId =
      getNextChunk hash now st transferId ∧
    (∀ context, mapFind st.activeTransfers transferId = some context →
      context.currentChunk < context.chunks.length →
      ∃ cd, (getNextChunk hash now st transferId).1 = .ok (some cd) ∧
        cd.index = (context.chunks.getD context.currentChunk ⟨0, 0, 0, 0⟩).index) := by
  have hframe : (getNextChunk hash now st transferId).2 = st := by
    unfold getNextChunk
    cases h : mapFind st.activeTransfers transferId with
    | none => rfl
    | some context => by_cases hc : context.currentChunk ≥ context.chunks.length <;> simp [hc]
  refine ⟨hframe, by rw [hframe], ?_⟩
  intro context hctx hlt
  simp only [getNextChunk, hctx, ge_iff_le, if_neg (Nat.not_le.mpr hlt)]
  exact ⟨_, rfl, rfl⟩

/-- C10 witness: the theorem applied to the concrete two-chunk state;
the returned chunk has index 0 (the cursor) and the state is
untouched. -/
theorem getNextChunk_frame_witness :
    (getNextChunk hashLen 0 witnessSt ("t")).2 = witnessSt ∧
    ∃ cd, (getNextChunk hashLen 0 witnessSt ("t")).1 = .ok (some cd) ∧ cd.index = 0 := by
  obtain ⟨h1, _, h3⟩ := getNextChunk_frame hashLen 0 witnessSt ("t")
  refine ⟨h1, ?_⟩
  obtain ⟨cd, hcd, hidx⟩ := h3 witnessCtx (by rfl) (by decide)
  exact ⟨cd, hcd, by simpa [witnessCtx, chunkPlan, ceilDiv] using hidx⟩


/-! ## acknowledgeChunk: unfolding lemmas -/

theorem acknowledgeChunk_fail_below (now : Nat) (st : FTState) (tid : String)
    (ack : ChunkAck) (ctx : TransferContext)
    (hctx : mapFind st.activeTransfers tid = some ctx)
    (hsucc : ack.success = false)
    (hlow : (mapFind ctx.retryCount ack.index).getD 0 < TRANSFER_CONFIG.maxRetries) :
    acknowledgeChunk now st tid ack =
      (some (.ok ()),
       { st with activeTransfers := mapSet st.activeTransfers tid { ctx with retryCount := mapSet ctx.retryCount ack.index ((mapFind ctx.retryCount ack.index).getD 0 + 1) } }) := by
  simp [acknowledgeChunk, hctx, hsucc, Nat.not_le.mpr hlow]

theorem acknowledgeChunk_fail_exhausted (now : Nat) (st : FTState) (tid : String)
    (ack : ChunkAck) (ctx : TransferContext)
    (hctx : mapFind st.activeTransfers tid = some ctx)
    (hsucc : ack.success = false)
    (hhigh : (mapFind ctx.retryCount ack.index).getD 0 ≥ TRANSFER_CONFIG.maxRetries) :
    acknowledgeChunk now st tid ack =
      (some (.err (ftCreateError .CHECKSUM_MISMATCH
        (some ("Chunk (" ++ String.mk (natDigits ack.index) ++ ") failed after (" ++
          String.mk (natDigits ((mapFind ctx.retryCount ack.index).getD 0)) ++
          ") retries")) now)), st) := by
  simp [acknowledgeChunk, hctx, hsucc, hhigh]

theorem acknowledgeChunk_success_eq (now : Nat) (st : FTState) (tid : String)
    (ack : ChunkAck) (ctx : TransferContext) (ci : ChunkInfo)
    (hctx : mapFind st.activeTransfers tid = some ctx)
    (hsucc : ack.success = true)
    (hchunk : ctx.chunks[ctx.currentChunk]? = some ci) :
    acknowledgeChunk now st tid ack =
      (some (.ok ()),
       { st with activeTransfers := mapSet st.activeTransfers tid { ctx with transferredBytes := ctx.transferredBytes + ci.size, currentChunk := ctx.currentChunk + 1, retryCount := mapDelete ctx.retryCount ack.index } }) := by
  simp [acknowledgeChunk, hctx, hsucc, hchunk]

/-! ## C2 — failed acks: no cursor advance, retry exhaustion -/

/-- C2: a failed ack never advances the cursor (nor `transferredBytes`),
and with `maxRetries = 3` four consecutive failed acks for the same
fresh chunk index return `ok` (resend) three times and then a terminal
non-recoverable `CHECKSUM_MISMATCH` error, still without moving the
cursor. -/
theorem acknowledgeChunk_retry_exhaustion (now1 now2 now3 now4 : Nat)
    (st : FTState) (tid : String) (i : Nat) (ck1 ck2 ck3 ck4 : String)
    (ctx : TransferContext)
    (hctx : mapFind st.activeTransfers tid = some ctx)
    (hfresh : mapFind ctx.retryCount i = none) :
    (∀ now0 st0 ack ctx0, ack.success = false →
      mapFind st0.activeTransfers tid = some ctx0 →
      ∀ ctx9, mapFind (acknowledgeChunk now0 st0 tid ack).2.activeTransfers tid = some ctx9 →
        ctx9.currentChunk = ctx0.currentChunk ∧
        ctx9.transferredBytes = ctx0.transferredBytes) ∧
    (acknowledgeChunk now1 st tid ⟨i, ck1, false⟩).1 = some (.ok ()) ∧
    (acknowledgeChunk now2 (acknowledgeChunk now1 st tid ⟨i, ck1, false⟩).2 tid ⟨i, ck2, false⟩).1 = some (.ok ()) ∧
    (acknowledgeChunk now3 (acknowledgeChunk now2 (acknowledgeChunk now1 st tid ⟨i, ck1, false⟩).2 tid ⟨i, ck2, false⟩).2 tid ⟨i, ck3, false⟩).1 = some (.ok ()) ∧
    (∃ e, (acknowledgeChunk now4 (acknowledgeChunk now3 (acknowledgeChunk now2 (acknowledgeChunk now1 st tid ⟨i, ck1, false⟩).2 tid ⟨i, ck2, false⟩).2 tid ⟨i, ck3, false⟩).2 tid ⟨i, ck4, false⟩).1 = some (.err e) ∧
      e.code = .CHECKSUM_MISMATCH ∧ e.recoverable = false) ∧
    (acknowledgeChunk now4 (acknowledgeChunk now3 (acknowledgeChunk now2 (acknowledgeChunk now1 st tid ⟨i, ck1, false⟩).2 tid ⟨i, ck2, false⟩).2 tid ⟨i, ck3, false⟩).2 tid ⟨i, ck4, false⟩).2 =
      (acknowledgeChunk now3 (acknowledgeChunk now2 (acknowledgeChunk now1 st tid ⟨i, ck1, false⟩).2 tid ⟨i, ck2, false⟩).2 tid ⟨i, ck3, false⟩).2 ∧
    (∀ ctx4, mapFind (acknowledgeChunk now4 (acknowledgeChunk now3 (acknowledgeChunk now2 (acknowledgeChunk now1 st tid ⟨i, ck1, false⟩).2 tid ⟨i, ck2, false⟩).2 tid ⟨i, ck3, false⟩).2 tid ⟨i, ck4, false⟩).2.activeTransfers tid = some ctx4 →
      ctx4.currentChunk = ctx.currentChunk ∧
      ctx4.transferredBytes = ctx.transferredBytes) := by
  have hnever : ∀ now0 st0 ack ctx0, ack.success = false →
      mapFind st0.activeTransfers tid = some ctx0 →
      ∀ ctx9, mapFind (acknowledgeChunk now0 st0 tid ack).2.activeTransfers tid = some ctx9 →
        ctx9.currentChunk = ctx0.currentChunk ∧
        ctx9.transferredBytes = ctx0.transferredBytes := by
    intro now0 st0 ack ctx0 hsucc hctx0 ctx9 hctx9
    by_cases hhi : (mapFind ctx0.retryCount ack.index).getD 0 ≥ TRANSFER_CONFIG.maxRetries
    · rw [acknowledgeChunk_fail_exhausted now0 st0 tid ack ctx0 hctx0 hsucc hhi] at hctx9
      rw [hctx0] at hctx9
      injection hctx9 with h
      rw [← h]
      exact ⟨rfl, rfl⟩
    · rw [acknowledgeChunk_fail_below now0 st0 tid ack ctx0 hctx0 hsucc (Nat.not_le.mp hhi)] at hctx9
      rw [mapFind_mapSet_self] at hctx9
      injection hctx9 with h
      rw [← h]
      exact ⟨rfl, rfl⟩
  have hfd : (mapFind ctx.retryCount i).getD 0 = 0 := by rw [hfresh]; rfl
  have e1 := acknowledgeChunk_fail_below now1 st tid ⟨i, ck1, false⟩ ctx hctx rfl
    (by rw [hfd]; norm_num [TRANSFER_CONFIG])
  rw [hfd] at e1
  norm_num at e1
  have hctx1 : mapFind (acknowledgeChunk now1 st tid ⟨i, ck1, false⟩).2.activeTransfers tid =
      some { ctx with retryCount := mapSet ctx.retryCount i 1 } := by
    rw [e1]
    exact mapFind_mapSet_self st.activeTransfers tid _
  have hfd1 : (mapFind (mapSet ctx.retryCount i 1) i).getD 0 = 1 := by
    rw [mapFind_mapSet_self]
    rfl
  have e2 := acknowledgeChunk_fail_below now2 (acknowledgeChunk now1 st tid ⟨i, ck1, false⟩).2
    tid ⟨i, ck2, false⟩ { ctx with retryCount := mapSet ctx.retryCount i 1 } hctx1 rfl
    (by rw [hfd1]; norm_num [TRANSFER_CONFIG])
  rw [hfd1] at e2
  norm_num at e2
  have hctx2 : mapFind (acknowledgeChunk now2 (acknowledgeChunk now1 st tid ⟨i, ck1, false⟩).2 tid ⟨i, ck2, false⟩).2.activeTransfers tid =
      some { ctx with retryCount := mapSet (mapSet ctx.retryCount i 1) i 2 } := by
    rw [e2]
    exact mapFind_mapSet_self _ tid _
  have hfd2 : (mapFind (mapSet (mapSet ctx.retryCount i 1) i 2) i).getD 0 = 2 := by
    rw [mapFind_mapSet_self]
    rfl
  have e3 := acknowledgeChunk_fail_below now3
    (acknowledgeChunk now2 (acknowledgeChunk now1 st tid ⟨i, ck1, false⟩).2 tid ⟨i, ck2, false⟩).2
    tid ⟨i, ck3, false⟩ { ctx with retryCount := mapSet (mapSet ctx.retryCount i 1) i 2 } hctx2 rfl
    (by rw [hfd2]; norm_num [TRANSFER_CONFIG])
  rw [hfd2] at e3
  norm_num at e3
  have hctx3 : mapFind (acknowledgeChunk now3 (acknowledgeChunk now2 (acknowledgeChunk now1 st tid ⟨i, ck1, false⟩).2 tid ⟨i, ck2, false⟩).2 tid ⟨i, ck3, false⟩).2.activeTransfers tid =
      some { ctx with retryCount := mapSet (mapSet (mapSet ctx.retryCount i 1) i 2) i 3 } := by
    rw [e3]
    exact mapFind_mapSet_self _ tid _
  have hfd3 : (mapFind (mapSet (mapSet (mapSet ctx.retryCount i 1) i 2) i 3) i).getD 0 = 3 := by
    rw [mapFind_mapSet_self]
    rfl
  have e4 := acknowledgeChunk_fail_exhausted now4
    (acknowledgeChunk now3 (acknowledgeChunk now2 (acknowledgeChunk now1 st tid ⟨i, ck1, false⟩).2 tid ⟨i, ck2, false⟩).2 tid ⟨i, ck3, false⟩).2
    tid ⟨i, ck4, false⟩ { ctx with retryCount := mapSet (mapSet (mapSet ctx.retryCount i 1) i 2) i 3 } hctx3 rfl
    (by rw [hfd3]; norm_num [TRANSFER_CONFIG])
  rw [hfd3] at e4
  refine ⟨hnever, by rw [e1], by rw [e2], by rw [e3], ⟨_, by rw [e4], rfl, rfl⟩, by rw [e4], ?_⟩
  intro ctx4 hctx4
  rw [e4] at hctx4
  rw [hctx3] at hctx4
  injection hctx4 with h
  rw [← h]
  exact ⟨rfl, rfl⟩


/-- C2 witness: the retry-exhaustion chain run on the concrete two-chunk
state with chunk index 0. -/
theorem acknowledgeChunk_retry_exhaustion_witness :
    (acknowledgeChunk 1 witnessSt ("t") ⟨0, "", false⟩).1 = some (.ok ()) ∧
    (∃ e, (acknowledgeChunk 4 (acknowledgeChunk 3 (acknowledgeChunk 2 (acknowledgeChunk 1 witnessSt ("t") ⟨0, "", false⟩).2 ("t") ⟨0, "", false⟩).2 ("t") ⟨0, "", false⟩).2 ("t") ⟨0, "", false⟩).1 = some (.err e) ∧
      e.code = .CHECKSUM_MISMATCH ∧ e.recoverable = false) := by
  obtain ⟨-, h1, -, -, h4, -, -⟩ :=
    acknowledgeChunk_retry_exhaustion 1 2 3 4 witnessSt ("t") 0 ("") "" "" ""
      witnessCtx rfl rfl
  exact ⟨h1, h4⟩

/-! ## C5 — duplicate successful acks are *not* idempotent -/

/-- C5 counterexample: on the concrete two-chunk transfer (sizes 2 and
1), acknowledging chunk index 0 successfully twice leaves
`transferredBytes = 3`, not the `2` reached after the first ack: the
success branch ignores `ack.index` and advances the cursor again. -/
theorem acknowledgeChunk_duplicate_counterexample :
    (mapFind (acknowledgeChunk 0 witnessSt ("t") ⟨0, "", true⟩).2.activeTransfers ("t")).map
      TransferContext.transferredBytes = some 2 ∧
    (mapFind (acknowledgeChunk 0 (acknowledgeChunk 0 witnessSt ("t") ⟨0, "", true⟩).2 ("t") ⟨0, "", true⟩).2.activeTransfers ("t")).map
      TransferContext.transferredBytes = some 3 ∧
    (mapFind (acknowledgeChunk 0 (acknowledgeChunk 0 witnessSt ("t") ⟨0, "", true⟩).2 ("t") ⟨0, "", true⟩).2.activeTransfers ("t")).map
        TransferContext.transferredBytes ≠
      (mapFind (acknowledgeChunk 0 witnessSt ("t") ⟨0, "", true⟩).2.activeTransfers ("t")).map
        TransferContext.transferredBytes := by
  refine ⟨by decide, by decide, by decide⟩

/-- C5 (amended): `acknowledgeChunk` ignores `ack.index` in the success
branch, so re-acknowledging the same chunk index a second time (while
the cursor is still inside the plan) advances the cursor again and adds
the size of the chunk at the advanced cursor to `transferredBytes` —
the duplicate ack is not idempotent. -/
theorem acknowledgeChunk_duplicate_ack (now now2 : Nat) (st : FTState)
    (tid : String) (i : Nat) (ck ck2 : String) (ctx : TransferContext)
    (ci ci2 : ChunkInfo)
    (hctx : mapFind st.activeTransfers tid = some ctx)
    (hc1 : ctx.chunks[ctx.currentChunk]? = some ci)
    (hc2 : ctx.chunks[ctx.currentChunk + 1]? = some ci2) :
    (mapFind (acknowledgeChunk now st tid ⟨i, ck, true⟩).2.activeTransfers tid).map
      TransferContext.transferredBytes = some (ctx.transferredBytes + ci.size) ∧
    (mapFind (acknowledgeChunk now2 (acknowledgeChunk now st tid ⟨i, ck, true⟩).2 tid ⟨i, ck2, true⟩).2.activeTransfers tid).map
      TransferContext.transferredBytes = some (ctx.transferredBytes + ci.size + ci2.size) ∧
    (mapFind (acknowledgeChunk now2 (acknowledgeChunk now st tid ⟨i, ck, true⟩).2 tid ⟨i, ck2, true⟩).2.activeTransfers tid).map
      TransferContext.currentChunk = some (ctx.currentChunk + 2) := by
  have e1 := acknowledgeChunk_success_eq now st tid ⟨i, ck, true⟩ ctx ci hctx rfl hc1
  have hctx1 : mapFind (acknowledgeChunk now st tid ⟨i, ck, true⟩).2.activeTransfers tid =
      some { ctx with transferredBytes := ctx.transferredBytes + ci.size, currentChunk := ctx.currentChunk + 1, retryCount := mapDelete ctx.retryCount i } := by
    rw [e1]
    exact mapFind_mapSet_self st.activeTransfers tid _
  have e2 := acknowledgeChunk_success_eq now2 (acknowledgeChunk now st tid ⟨i, ck, true⟩).2
    tid ⟨i, ck2, true⟩
    { ctx with transferredBytes := ctx.transferredBytes + ci.size, currentChunk := ctx.currentChunk + 1, retryCount := mapDelete ctx.retryCount i }
    ci2 hctx1 rfl hc2
  have hctx2 : mapFind (acknowledgeChunk now2 (acknowledgeChunk now st tid ⟨i, ck, true⟩).2 tid ⟨i, ck2, true⟩).2.activeTransfers tid =
      some { ctx with transferredBytes := ctx.transferredBytes + ci.size + ci2.size, currentChunk := ctx.currentChunk + 1 + 1, retryCount := mapDelete (mapDelete ctx.retryCount i) i } := by
    rw [e2]
    exact mapFind_mapSet_self _ tid _
  rw [hctx1, hctx2]
  exact ⟨rfl, rfl, rfl⟩

/-- C5 amended-claim witness: the characterization applied to the
concrete two-chunk state (2 then 3 transferred bytes, cursor at 2). -/
theorem acknowledgeChunk_duplicate_ack_witness :
    (mapFind (acknowledgeChunk 0 witnessSt ("t") ⟨0, "x", true⟩).2.activeTransfers ("t")).map
      TransferContext.transferredBytes = some 2 ∧
    (mapFind (acknowledgeChunk 0 (acknowledgeChunk 0 witnessSt ("t") ⟨0, "x", true⟩).2 ("t") ⟨0, "x", true⟩).2.activeTransfers ("t")).map
      TransferContext.transferredBytes = some 3 ∧
    (mapFind (acknowledgeChunk 0 (acknowledgeChunk 0 witnessSt ("t") ⟨0, "x", true⟩).2 ("t") ⟨0, "x", true⟩).2.activeTransfers ("t")).map
      TransferContext.currentChunk = some 2 :=
  acknowledgeChunk_duplicate_ack 0 0 witnessSt ("t") 0 ("x") "x" witnessCtx
    ⟨0, 0, 2, 2⟩ ⟨1, 2, 3, 1⟩ rfl rfl rfl


/-! ## C3 — receiveChunk discards corrupt chunks -/

/-- A receiver-side fixture: an (empty) allocated receiving buffer under
id `"r"`. -/
def witnessRecvSt : FTState :=
  { activeTransfers := [], receivingBuffers := [("r", [])] }

/-- C3: with an allocated buffer, `receiveChunk` acks with the chunk's
index and the *receiver-computed* checksum; on a mismatch it reports
`success = false` and leaves the whole service state untouched (the
bytes are not stored); on a match it reports `success = true` and
stores the bytes at the chunk's index.  The function is total — an
ordinary checksum mismatch never throws. -/
theorem receiveChunk_checksum (hash : Bytes → String) (st : FTState)
    (tid : String) (chunk : ChunkData) (buf : List (Option Bytes))
    (hbuf : mapFind st.receivingBuffers tid = some buf) :
    (receiveChunk hash st tid chunk).1.index = chunk.index ∧
    (receiveChunk hash st tid chunk).1.checksum = hash chunk.data ∧
    (hash chunk.data ≠ chunk.checksum →
      (receiveChunk hash st tid chunk).1.success = false ∧
      (receiveChunk hash st tid chunk).2 = st) ∧
    (hash chunk.data = chunk.checksum →
      (receiveChunk hash st tid chunk).1.success = true ∧
      mapFind (receiveChunk hash st tid chunk).2.receivingBuffers tid =
        some (listWrite buf chunk.index chunk.data) ∧
      (receiveChunk hash st tid chunk).2.activeTransfers = st.activeTransfers) := by
  by_cases h : hash chunk.data = chunk.checksum
  · have hb : (hash chunk.data == chunk.checksum) = true := beq_iff_eq.mpr h
    refine ⟨?_, ?_, fun hne => absurd h hne, fun _ => ⟨?_, ?_, ?_⟩⟩ <;>
      simp [receiveChunk, hbuf, hb, mapFind_mapSet_self]
  · have hb : (hash chunk.data == chunk.checksum) = false := by
      simpa using h
    refine ⟨?_, ?_, fun _ => ⟨?_, ?_⟩, fun heq => absurd heq h⟩ <;>
      simp [receiveChunk, hbuf, hb]

/-- C3 witness: a mismatching declared checksum is rejected without
touching the state, and the matching one (`hashLen [5] = "1"`) is
stored. -/
theorem receiveChunk_checksum_witness :
    (receiveChunk hashLen witnessRecvSt ("r") ⟨0, [5], "bad", false⟩).1.success = false ∧
    (receiveChunk hashLen witnessRecvSt ("r") ⟨0, [5], "bad", false⟩).2 = witnessRecvSt ∧
    (receiveChunk hashLen witnessRecvSt ("r") ⟨0, [5], "1", false⟩).1.success = true := by
  obtain ⟨-, -, hmis, -⟩ :=
    receiveChunk_checksum hashLen witnessRecvSt ("r") ⟨0, [5], "bad", false⟩ [] rfl
  obtain ⟨-, -, -, hok⟩ :=
    receiveChunk_checksum hashLen witnessRecvSt ("r") ⟨0, [5], "1", false⟩ [] rfl
  obtain ⟨h1, h2⟩ := hmis (by decide)
  obtain ⟨h3, -, -⟩ := hok (by decide)
  exact ⟨h1, h2, h3⟩

/-! ## C4 — completeReceiving: outcome and buffer release -/

/-- A receiver state whose buffer for `"r"` has a hole at slot 0 (the
state produced by receiving chunk index 1 before index 0). -/
def holeySt : FTState :=
  { activeTransfers := [], receivingBuffers := [("r", [none, some [1]])] }

/-- C4 counterexample: on an allocated buffer with a hole,
`completeReceiving` returns *neither* the blob nor a checksum error (the
source throws a `TypeError` reading `byteLength` of the missing slot,
embedded as `none`) and the buffer is **not** removed — so, as stated
over every allocated buffer, the claim fails. -/
theorem completeReceiving_hole_counterexample :
    (completeReceiving hashLen 0 holeySt ("r")
      { name := "f", size := 1, type := "text/plain", lastModified := 0, checksum := none }
      "x").1 = none ∧
    mapFind (completeReceiving hashLen 0 holeySt ("r")
      { name := "f", size := 1, type := "text/plain", lastModified := 0, checksum := none }
      "x").2.receivingBuffers ("r") = some [none, some [1]] := by
  exact ⟨by decide, by decide⟩

/-- C4 (amended): for an allocated buffer with **no holes** (every slot
below the length filled), `completeReceiving` returns the assembled blob
iff the recomputed checksum over the concatenation equals the expected
one, returns a non-recoverable `CHECKSUM_MISMATCH` error otherwise, and
removes the buffer in both outcomes; with a hole it throws (returning
neither) and the buffer leaks. -/
theorem completeReceiving_spec (hash : Bytes → String) (now : Nat)
    (st : FTState) (tid : String) (md : FileMetadata) (expected : String)
    (buf : List (Option Bytes))
    (hbuf : mapFind st.receivingBuffers tid = some buf)
    (hfull : ∀ slot ∈ buf, slot.isSome) :
    (hash (bufConcat buf) = expected →
      (completeReceiving hash now st tid md expected).1 =
        some (.ok { data := bufConcat buf, type := md.type })) ∧
    (hash (bufConcat buf) ≠ expected →
      ∃ e, (completeReceiving hash now st tid md expected).1 = some (.err e) ∧
        e.code = .CHECKSUM_MISMATCH ∧ e.recoverable = false) ∧
    mapFind (completeReceiving hash now st tid md expected).2.receivingBuffers tid = none := by
  have hall : buf.all Option.isSome = true := List.all_eq_true.mpr hfull
  by_cases h : hash (bufConcat buf) = expected
  · have hb : (hash (bufConcat buf) != expected) = false := by simpa using h
    refine ⟨fun _ => ?_, fun hne => absurd h hne, ?_⟩ <;>
      simp [completeReceiving, hbuf, hall, hb, mapFind_mapDelete_self]
  · have hb : (hash (bufConcat buf) != expected) = true := by simpa using h
    have hmain : (completeReceiving hash now st tid md expected).1 =
        some (.err (ftCreateError .CHECKSUM_MISMATCH
          (some ("Expected: " ++ expected.take 16 ++ "..., Got: " ++
            (hash (bufConcat buf)).take 16 ++ "...")) now)) := by
      simp [completeReceiving, hbuf, hall, hb]
    refine ⟨fun heq => absurd heq h, fun _ => ⟨_, hmain, rfl, rfl⟩, ?_⟩
    simp [completeReceiving, hbuf, hall, hb, mapFind_mapDelete_self]

/-- C4 amended-claim witness: a hole-free one-slot buffer assembled with
the matching and with a wrong expected checksum. -/
theorem completeReceiving_spec_witness :
    (completeReceiving hashLen 0
      { activeTransfers := [], receivingBuffers := [("r", [some [7]])] } "r"
      { name := "f", size := 1, type := "text/plain", lastModified := 0, checksum := none }
      "1").1 =
      some (.ok { data := [7], type := "text/plain" }) ∧
    (∃ e, (completeReceiving hashLen 0
      { activeTransfers := [], receivingBuffers := [("r", [some [7]])] } "r"
      { name := "f", size := 1, type := "text/plain", lastModified := 0, checksum := none }
      "bad").1 = some (.err e) ∧ e.code = .CHECKSUM_MISMATCH ∧ e.recoverable = false) ∧
    mapFind (completeReceiving hashLen 0
      { activeTransfers := [], receivingBuffers := [("r", [some [7]])] } "r"
      { name := "f", size := 1, type := "text/plain", lastModified := 0, checksum := none }
      "1").2.receivingBuffers ("r") = none := by
  obtain ⟨hok, -, hdel⟩ := completeReceiving_spec hashLen 0
    { activeTransfers := [], receivingBuffers := [("r", [some [7]])] } "r"
    { name := "f", size := 1, type := "text/plain", lastModified := 0, checksum := none }
    "1" [some [7]] rfl (by decide)
  obtain ⟨-, hmis, -⟩ := completeReceiving_spec hashLen 0
    { activeTransfers := [], receivingBuffers := [("r", [some [7]])] } "r"
    { name := "f", size := 1, type := "text/plain", lastModified := 0, checksum := none }
    "bad" [some [7]] rfl (by decide)
  exact ⟨hok (by decide), hmis (by decide), hdel⟩


/-! ## C8 — relay server authentication gate -/

/-- C8: while the client is unauthenticated, every non-`auth` message is
answered with the `Not authenticated` error and the server state (the
`authenticated` flag, `pendingFiles`, `sharedFiles`) is returned
untouched; an `auth` with a wrong session code yields `auth-failed`
followed by the socket close, again with the state — in particular the
`authenticated` flag — unchanged. -/
theorem handleMessage_auth_gate (st : RelayState) (clientId : String)
    (msg : RelayMessage) (validSessionCode : String)
    (hunauth : st.clientAuthenticated = false) :
    (msg.type ≠ "auth" →
      handleMessage st clientId msg validSessionCode =
        some (st, [.errorMsg ("Not authenticated")])) ∧
    (msg.type = "auth" → msg.sessionCode ≠ some validSessionCode →
      handleMessage st clientId msg validSessionCode =
        some (st, [.authFailed ("Invalid session code"), .closeSocket]) ∧
      ∀ st2 effects, handleMessage st clientId msg validSessionCode = some (st2, effects) →
        st2.clientAuthenticated = false) := by
  constructor
  · intro hne
    simp [handleMessage, hne, hunauth]
  · intro hauth hbad
    have hmain : handleMessage st clientId msg validSessionCode =
        some (st, [.authFailed ("Invalid session code"), .closeSocket]) := by
      simp [handleMessage, hauth, hbad]
    refine ⟨hmain, ?_⟩
    intro st2 effects h2
    rw [hmain] at h2
    injection h2 with h3
    have : st = st2 := congrArg Prod.fst h3
    rw [← this]
    exact hunauth

/-- C8 witness: a pre-auth `file-start` is rejected with
`Not authenticated`, and an `auth` with the wrong code gets
`auth-failed` plus the close, both leaving the fresh state untouched. -/
theorem handleMessage_auth_gate_witness :
    handleMessage { clientAuthenticated := false, pendingFiles := [], sharedFiles := [] }
        "c" { type := "file-start", sessionCode := none, payload := none } "good" =
      some ({ clientAuthenticated := false, pendingFiles := [], sharedFiles := [] },
        [.errorMsg ("Not authenticated")]) ∧
    handleMessage { clientAuthenticated := false, pendingFiles := [], sharedFiles := [] }
        "c" { type := "auth", sessionCode := some ("bad"), payload := none } "good" =
      some ({ clientAuthenticated := false, pendingFiles := [], sharedFiles := [] },
        [.authFailed ("Invalid session code"), .closeSocket]) := by
  obtain ⟨h1, -⟩ := handleMessage_auth_gate
    { clientAuthenticated := false, pendingFiles := [], sharedFiles := [] }
    "c" { type := "file-start", sessionCode := none, payload := none } "good" rfl
  obtain ⟨-, h2⟩ := handleMessage_auth_gate
    { clientAuthenticated := false, pendingFiles := [], sharedFiles := [] }
    "c" { type := "auth", sessionCode := some ("bad"), payload := none } "good" rfl
  exact ⟨h1 (by decide), (h2 rfl (by decide)).1⟩


/-! ## C1 — the chunk plan partitions the file -/

theorem ceilDiv_mul_ge (a b : Nat) (hb : 0 < b) : a ≤ ceilDiv a b * b := by
  unfold ceilDiv
  have h1 := Nat.div_add_mod (a + b - 1) b
  have h2 := Nat.mod_lt (a + b - 1) hb
  rw [Nat.mul_comm]
  generalize b * ((a + b - 1) / b) = t at h1 ⊢
  omega

theorem mul_lt_of_lt_ceilDiv (a b n : Nat) (hb : 0 < b)
    (h : n < ceilDiv a b) : n * b < a := by
  unfold ceilDiv at h
  have h2 : n + 1 ≤ (a + b - 1) / b := h
  rw [Nat.le_div_iff_mul_le hb] at h2
  have h3 : (n + 1) * b = n * b + b := by ring
  rw [h3] at h2
  generalize n * b = t at h2 ⊢
  omega

theorem chunkPlan_length (fileSize chunkSize : Nat) :
    (chunkPlan fileSize chunkSize).length = ceilDiv fileSize chunkSize := by
  simp [chunkPlan]

theorem chunkPlan_getElem (fileSize chunkSize i : Nat)
    (h : i < (chunkPlan fileSize chunkSize).length) :
    (chunkPlan fileSize chunkSize)[i] =
      { index := i, start := i * chunkSize
        «end» := min (i * chunkSize + chunkSize) fileSize
        size := min (i * chunkSize + chunkSize) fileSize - i * chunkSize } := by
  unfold chunkPlan at h ⊢
  rw [List.getElem_map, List.getElem_range]

theorem chunkPlan_sum_sizes (fileSize chunkSize : Nat) (hc : 0 < chunkSize) :
    ∀ n, n ≤ ceilDiv fileSize chunkSize →
      ((List.range n).map
        (fun i => min (i * chunkSize + chunkSize) fileSize - i * chunkSize)).sum =
        min (n * chunkSize) fileSize := by
  intro n
  induction n with
  | zero => simp
  | succ k ih =>
    intro hk
    rw [List.range_succ, List.map_append, List.sum_append, ih (Nat.le_of_succ_le hk)]
    have hlt : k * chunkSize < fileSize :=
      mul_lt_of_lt_ceilDiv fileSize chunkSize k hc (Nat.lt_of_succ_le hk)
    have h1 : min (k * chunkSize) fileSize = k * chunkSize :=
      Nat.min_eq_left (Nat.le_of_lt hlt)
    have h2 : (k + 1) * chunkSize = k * chunkSize + chunkSize := by ring
    rw [h1, h2]
    simp only [List.map_cons, List.map_nil, List.sum_cons, List.sum_nil]
    rcases Nat.le_total (k * chunkSize + chunkSize) fileSize with hle | hge
    · rw [Nat.min_eq_left hle]
      generalize k * chunkSize = t at hlt hle ⊢
      omega
    · rw [Nat.min_eq_right hge]
      generalize k * chunkSize = t at hlt hge ⊢
      omega

/-- C1: for `fileSize ≥ 1` and `chunkSize ≥ 1`, the plan built by
`prepareTransfer` has exactly `ceil(fileSize / chunkSize)` entries; the
`i`-th entry covers `[i·chunkSize, min((i+1)·chunkSize, fileSize))` with
`size = end - start`; consecutive ranges are contiguous (hence
non-overlapping); the first range starts at 0, the last ends at
`fileSize`, the chunk sizes sum to `fileSize`, and the final chunk's
size lies in `[1, chunkSize]`. -/
theorem chunkPlan_partitions (fileSize chunkSize : Nat)
    (hf : 1 ≤ fileSize) (hc : 1 ≤ chunkSize) :
    (chunkPlan fileSize chunkSize).length = ceilDiv fileSize chunkSize ∧
    (∀ i (h : i < (chunkPlan fileSize chunkSize).length),
      ((chunkPlan fileSize chunkSize)[i].index = i ∧
       (chunkPlan fileSize chunkSize)[i].start = i * chunkSize ∧
       (chunkPlan fileSize chunkSize)[i].«end» =
         min (i * chunkSize + chunkSize) fileSize ∧
       (chunkPlan fileSize chunkSize)[i].size =
         (chunkPlan fileSize chunkSize)[i].«end» -
           (chunkPlan fileSize chunkSize)[i].start)) ∧
    (∀ i (h : i + 1 < (chunkPlan fileSize chunkSize).length),
      ((chunkPlan fileSize chunkSize).get ⟨i + 1, h⟩).start =
        ((chunkPlan fileSize chunkSize).get ⟨i, Nat.lt_of_succ_lt h⟩).«end») ∧
    (chunkPlan fileSize chunkSize).head?.map ChunkInfo.start = some 0 ∧
    (chunkPlan fileSize chunkSize).getLast?.map ChunkInfo.«end» = some fileSize ∧
    ((chunkPlan fileSize chunkSize).map ChunkInfo.size).sum = fileSize ∧
    (∀ last, (chunkPlan fileSize chunkSize).getLast? = some last →
      1 ≤ last.size ∧ last.size ≤ chunkSize) := by
  have hlen := chunkPlan_length fileSize chunkSize
  have htot1 : 1 ≤ ceilDiv fileSize chunkSize := by
    unfold ceilDiv
    rw [Nat.le_div_iff_mul_le hc]
    omega
  have h0 : 0 < (chunkPlan fileSize chunkSize).length := by
    rw [hlen]
    exact htot1
  have hL : (chunkPlan fileSize chunkSize).length - 1 <
      (chunkPlan fileSize chunkSize).length := by omega
  have hLceil : (chunkPlan fileSize chunkSize).length - 1 <
      ceilDiv fileSize chunkSize := by
    rw [← hlen]
    exact hL
  have hsucc : ((chunkPlan fileSize chunkSize).length - 1) * chunkSize + chunkSize =
      ceilDiv fileSize chunkSize * chunkSize := by
    rw [hlen]
    have h4 : ceilDiv fileSize chunkSize - 1 + 1 = ceilDiv fileSize chunkSize :=
      Nat.succ_pred_eq_of_pos htot1
    calc (ceilDiv fileSize chunkSize - 1) * chunkSize + chunkSize
        = (ceilDiv fileSize chunkSize - 1 + 1) * chunkSize := by ring
      _ = ceilDiv fileSize chunkSize * chunkSize := by rw [h4]
  have hminlast : min (((chunkPlan fileSize chunkSize).length - 1) * chunkSize + chunkSize)
      fileSize = fileSize := by
    rw [hsucc]
    exact Nat.min_eq_right (ceilDiv_mul_ge fileSize chunkSize hc)
  refine ⟨hlen, ?_, ?_, ?_, ?_, ?_, ?_⟩
  · intro i h
    rw [chunkPlan_getElem fileSize chunkSize i h]
    exact ⟨rfl, rfl, rfl, rfl⟩
  · intro i h
    rw [List.get_eq_getElem, List.get_eq_getElem,
      chunkPlan_getElem fileSize chunkSize (i + 1) h,
      chunkPlan_getElem fileSize chunkSize i (Nat.lt_of_succ_lt h)]
    have hi1 : i + 1 < ceilDiv fileSize chunkSize := by
      rw [← hlen]
      exact h
    have hlt := mul_lt_of_lt_ceilDiv fileSize chunkSize (i + 1) hc hi1
    have h2 : (i + 1) * chunkSize = i * chunkSize + chunkSize := by ring
    have h3 : i * chunkSize + chunkSize ≤ fileSize := by
      rw [← h2]
      exact Nat.le_of_lt hlt
    show (i + 1) * chunkSize = min (i * chunkSize + chunkSize) fileSize
    rw [Nat.min_eq_left h3]
    exact h2
  · rw [List.head?_eq_getElem?, List.getElem?_eq_getElem h0,
      chunkPlan_getElem fileSize chunkSize 0 h0]
    simp
  · rw [List.getLast?_eq_getElem?, List.getElem?_eq_getElem hL,
      chunkPlan_getElem fileSize chunkSize _ hL]
    show some (min (((chunkPlan fileSize chunkSize).length - 1) * chunkSize + chunkSize)
      fileSize) = some fileSize
    rw [hminlast]
  · unfold chunkPlan
    rw [List.map_map]
    have hcomp : ChunkInfo.size ∘ (fun i =>
        let start := i * chunkSize
        let e := min (start + chunkSize) fileSize
        ({ index := i, start := start, «end» := e, size := e - start } : ChunkInfo)) =
        fun i => min (i * chunkSize + chunkSize) fileSize - i * chunkSize := rfl
    rw [hcomp, chunkPlan_sum_sizes fileSize chunkSize hc _ (Nat.le_refl _)]
    exact Nat.min_eq_right (ceilDiv_mul_ge fileSize chunkSize hc)
  · intro last hlast
    rw [List.getLast?_eq_getElem?, List.getElem?_eq_getElem hL,
      chunkPlan_getElem fileSize chunkSize _ hL] at hlast
    injection hlast with h5
    rw [← h5]
    simp only [hminlast]
    have hltL := mul_lt_of_lt_ceilDiv fileSize chunkSize _ hc hLceil
    have hub : fileSize ≤ ((chunkPlan fileSize chunkSize).length - 1) * chunkSize + chunkSize := by
      rw [hsucc]
      exact ceilDiv_mul_ge fileSize chunkSize hc
    generalize ((chunkPlan fileSize chunkSize).length - 1) * chunkSize = t at hltL hub ⊢
    constructor <;> omega


/-- C1 witness: the partition theorem applied to a 3-byte file with
2-byte chunks (2 chunks, sizes 2 and 1). -/
theorem chunkPlan_partitions_witness :
    (chunkPlan 3 2).length = ceilDiv 3 2 ∧
    ((chunkPlan 3 2).map ChunkInfo.size).sum = 3 ∧
    (chunkPlan 3 2).getLast?.map ChunkInfo.«end» = some 3 := by
  obtain ⟨h1, -, -, -, h5, h6, -⟩ := chunkPlan_partitions 3 2 (by norm_num) (by norm_num)
  exact ⟨h1, h6, h5⟩

/-! ## C6 — sanitizeFileName: supporting lemmas -/

theorem removeDotDot_cons_ne (d : Char) (t : List Char)
    (h : ∀ t2, d = Char.ofNat 46 → t = '.' :: t2 → False) :
    removeDotDot (d :: t) = d :: removeDotDot t := by
  rw [removeDotDot]
  exact h

theorem mem_removeDotDot (c : Char) : ∀ s, c ∈ removeDotDot s → c ∈ s := by
  intro s
  induction s using removeDotDot.induct with
  | case1 rest ih =>
    intro h
    rw [removeDotDot] at h
    exact List.mem_cons_of_mem _ (List.mem_cons_of_mem _ (ih h))
  | case2 d rest hne ih =>
    intro h
    rw [removeDotDot] at h
    · rcases List.mem_cons.mp h with h1 | h2
      · exact h1 ▸ List.mem_cons_self _ _
      · exact List.mem_cons_of_mem _ (ih h2)
    · exact hne
  | case3 =>
    intro h
    exact h

theorem hasDotDot_tail (c : Char) (t : List Char)
    (h : hasDotDot (c :: t) = false) : hasDotDot t = false := by
  cases t with
  | nil => rfl
  | cons d r =>
    rw [hasDotDot] at h
    exact (Bool.or_eq_false_iff.mp h).2

theorem hasDotDot_removeDotDot (s : List Char) :
    hasDotDot (removeDotDot s) = false := by
  induction s using removeDotDot.induct with
  | case1 rest ih =>
    rw [removeDotDot]
    exact ih
  | case2 c rest hne ih =>
    rw [removeDotDot_cons_ne c rest hne]
    cases hr : removeDotDot rest with
    | nil => rfl
    | cons d t =>
      have hdt : hasDotDot (d :: t) = false := by
        rw [← hr]
        exact ih
      rw [hasDotDot]
      by_cases hc : c = '.'
      · cases rest with
        | nil => simp [removeDotDot] at hr
        | cons e r2 =>
          have he : e ≠ '.' := by
            intro heq
            exact hne r2 (by rw [hc]) (by rw [heq])
          rw [removeDotDot_cons_ne e r2
            (fun t2 hedot _ => absurd hedot he)] at hr
          have hd : d ≠ '.' := by
            intro hdd
            apply he
            have : e = d := (List.cons.injEq _ _ _ _ ▸ hr).1
            rw [this, hdd]
          simp [hd, hdt]
      · simp [hc, hdt]
  | case3 => rfl

theorem hasDotDot_dropWhile (p : Char → Bool) :
    ∀ l, hasDotDot l = false → hasDotDot (l.dropWhile p) = false := by
  intro l
  induction l with
  | nil => intro h; exact h
  | cons c t ih =>
    intro h
    rw [List.dropWhile_cons]
    by_cases hp : p c = true
    · rw [if_pos hp]
      exact ih (hasDotDot_tail c t h)
    · rw [if_neg hp]
      exact h

theorem hasDotDot_of_no_dot : ∀ l : List Char, (∀ c ∈ l, c ≠ '.') →
    hasDotDot l = false := by
  intro l
  induction l with
  | nil => intro h; rfl
  | cons c t ih =>
    intro h
    cases t with
    | nil => rfl
    | cons d r =>
      rw [hasDotDot]
      have hc : c ≠ '.' := h c (List.mem_cons_self _ _)
      have ht : hasDotDot (d :: r) = false :=
        ih fun x hx => h x (List.mem_cons_of_mem _ hx)
      simp [hc, ht]

theorem head_dropWhile_false (p : Char → Bool) :
    ∀ (l : List Char) (c : Char), (l.dropWhile p).head? = some c → p c = false := by
  intro l
  induction l with
  | nil => intro c h; simp [List.dropWhile] at h
  | cons a t ih =>
    intro c h
    rw [List.dropWhile_cons] at h
    by_cases hp : p a = true
    · rw [if_pos hp] at h
      exact ih c h
    · rw [if_neg hp] at h
      injection h with h2
      rw [← h2]
      exact Bool.not_eq_true _ ▸ hp

theorem natDigitsCore_mem : ∀ fuel n (acc : List Char) c,
    c ∈ natDigitsCore fuel n acc →
    (∃ m, m < 10 ∧ c = Char.ofNat (48 + m)) ∨ c ∈ acc := by
  intro fuel
  induction fuel with
  | zero =>
    intro n acc c h
    exact Or.inr h
  | succ f ih =>
    intro n acc c h
    rw [natDigitsCore] at h
    by_cases hn : n < 10
    · rw [if_pos hn] at h
      rcases List.mem_cons.mp h with h1 | h2
      · exact Or.inl ⟨n % 10, Nat.mod_lt _ (by norm_num), h1⟩
      · exact Or.inr h2
    · rw [if_neg hn] at h
      rcases ih (n / 10) _ c h with h1 | h2
      · exact Or.inl h1
      · rcases List.mem_cons.mp h2 with h3 | h4
        · exact Or.inl ⟨n % 10, Nat.mod_lt _ (by norm_num), h3⟩
        · exact Or.inr h4

theorem natDigits_mem (n : Nat) (c : Char) (h : c ∈ natDigits n) :
    ∃ m, m < 10 ∧ c = Char.ofNat (48 + m) := by
  rcases natDigitsCore_mem (n + 1) n [] c h with h1 | h2
  · exact h1
  · exact absurd h2 (List.not_mem_nil c)

theorem digit_char_ne (m : Nat) (hm : m < 10) :
    Char.ofNat (48 + m) ≠ '/' ∧ Char.ofNat (48 + m) ≠ '\\' ∧
    Char.ofNat (48 + m) ≠ Char.ofNat 0 ∧ Char.ofNat (48 + m) ≠ '.' := by
  interval_cases m <;> exact ⟨by decide, by decide, by decide, by decide⟩

theorem natDigitsCore_length : ∀ fuel n (acc : List Char) k, n < fuel →
    n < 10 ^ k → 1 ≤ k →
    (natDigitsCore fuel n acc).length ≤ k + acc.length := by
  intro fuel
  induction fuel with
  | zero =>
    intro n acc k h
    omega
  | succ f ih =>
    intro n acc k hnf hnk hk
    rw [natDigitsCore]
    by_cases hn : n < 10
    · rw [if_pos hn]
      simp only [List.length_cons]
      omega
    · rw [if_neg hn]
      have hk2 : 2 ≤ k := by
        by_contra hlt
        have hk1 : k = 1 := by omega
        rw [hk1] at hnk
        simp at hnk
        omega
      have hdiv : n / 10 < 10 ^ (k - 1) := by
        rw [Nat.div_lt_iff_lt_mul (by norm_num)]
        have hp : 10 ^ (k - 1) * 10 = 10 ^ k := by
          rw [← Nat.pow_succ]
          congr 1
          omega
        rw [hp]
        exact hnk
      have hnf2 : n / 10 < f := by
        have hlt := Nat.div_lt_self (show 0 < n by omega) (show 1 < 10 by norm_num)
        omega
      have hrec := ih (n / 10) (Char.ofNat (48 + n % 10) :: acc) (k - 1) hnf2 hdiv (by omega)
      simp only [List.length_cons] at hrec
      omega

theorem natDigits_length_le (n : Nat) (h : n < 2 ^ 53) :
    (natDigits n).length ≤ 16 := by
  have h16 : n < 10 ^ 16 := lt_of_lt_of_le h (by norm_num)
  have hb := natDigitsCore_length (n + 1) n [] 16 (by omega) h16 (by norm_num)
  simpa using hb


/-- The `sanitizeFileName` with the configured `sanitizeFileName = true`
flag, written in terms of `strippedName`. -/
theorem sanitizeFileName_eq (now : Nat) (name : List Char) :
    sanitizeFileName now name =
      (if (if (strippedName name).length > 255 then
            jsSlice0 (strippedName name)
              (250 - ((getFileExtension (strippedName name)).length : Int)) ++
              getFileExtension (strippedName name)
          else strippedName name) = [] then
        "file_".toList ++ natDigits now
      else
        (if (strippedName name).length > 255 then
          jsSlice0 (strippedName name)
            (250 - ((getFileExtension (strippedName name)).length : Int)) ++
            getFileExtension (strippedName name)
        else strippedName name)) := rfl

theorem mem_strippedName (name : List Char) (c : Char)
    (hc : c ∈ strippedName name) :
    c ≠ '/' ∧ c ≠ '\\' ∧ c ≠ Char.ofNat 0 := by
  unfold strippedName at hc
  have h1 : c ∈ removeDotDot (((name.filter (fun c => c != '\\')).filter
      (fun c => c != '/')).filter (fun c => c != Char.ofNat 0)) :=
    (List.dropWhile_sublist _).subset hc
  have h2 := mem_removeDotDot c _ h1
  have h3 := List.mem_filter.mp h2
  have h4 := List.mem_filter.mp h3.1
  have h5 := List.mem_filter.mp h4.1
  refine ⟨?_, ?_, ?_⟩
  · simpa using h4.2
  · simpa using h5.2
  · simpa using h3.2

theorem mem_capped (stripped : List Char) (e : Int) (c : Char)
    (hc : c ∈ jsSlice0 stripped e ++ getFileExtension stripped) :
    c ∈ stripped := by
  rcases List.mem_append.mp hc with h1 | h2
  · unfold jsSlice0 at h1
    by_cases he : e < 0
    · rw [if_pos he] at h1
      exact List.take_subset _ _ h1
    · rw [if_neg he] at h1
      exact List.take_subset _ _ h1
  · unfold getFileExtension at h2
    by_cases hd : jsLastIndexOf stripped (Char.ofNat 46) > 0
    · rw [if_pos hd] at h2
      exact List.drop_subset _ _ h2
    · rw [if_neg hd] at h2
      exact absurd h2 (List.not_mem_nil c)

theorem mem_fallback (now : Nat) (c : Char)
    (hc : c ∈ "file_".toList ++ natDigits now) :
    c ≠ '/' ∧ c ≠ '\\' ∧ c ≠ Char.ofNat 0 ∧ c ≠ '.' := by
  rcases List.mem_append.mp hc with h1 | h2
  · have : c = 'f' ∨ c = 'i' ∨ c = 'l' ∨ c = 'e' ∨ c = '_' := by
      simpa [List.mem_cons] using h1
    rcases this with rfl | rfl | rfl | rfl | rfl <;>
      exact ⟨by decide, by decide, by decide, by decide⟩
  · obtain ⟨m, hm, rfl⟩ := natDigits_mem now c h2
    exact digit_char_ne m hm

/-- C6 (amended): the sanitized name never contains `/`, `\\` or a null
byte and is never empty; and whenever the length cap does **not**
trigger (the name after separator/null/`..` removal and leading-dot
stripping has at most 255 characters) it moreover contains no `..`,
does not start with `.`, and has at most 255 characters.  (`now` is
`Date.now()`, bounded by the 2⁵³ JS safe-integer range; when the cap
triggers, the result can exceed 255 characters, start with a dot, or
contain `..` — see the counterexample.) -/
theorem sanitizeFileName_spec (now : Nat) (name : List Char)
    (hnow : now < 2 ^ 53) :
    ('/' ∉ sanitizeFileName now name ∧
     '\\' ∉ sanitizeFileName now name ∧
     Char.ofNat 0 ∉ sanitizeFileName now name ∧
     sanitizeFileName now name ≠ []) ∧
    ((strippedName name).length ≤ 255 →
      hasDotDot (sanitizeFileName now name) = false ∧
      (∀ c, (sanitizeFileName now name).head? = some c → c ≠ '.') ∧
      (sanitizeFileName now name).length ≤ 255) := by
  rw [sanitizeFileName_eq]
  by_cases hcap : (strippedName name).length > 255
  · rw [if_pos hcap]
    constructor
    · by_cases hnil : jsSlice0 (strippedName name)
          (250 - ((getFileExtension (strippedName name)).length : Int)) ++
          getFileExtension (strippedName name) = []
      · rw [if_pos hnil]
        refine ⟨?_, ?_, ?_, ?_⟩
        · intro hmem
          exact absurd rfl (mem_fallback now _ hmem).1
        · intro hmem
          exact absurd rfl (mem_fallback now _ hmem).2.1
        · intro hmem
          exact absurd rfl (mem_fallback now _ hmem).2.2.1
        · intro hemp
          have : ("file_".toList ++ natDigits now).length = 0 := by rw [hemp]; rfl
          simp [List.length_append] at this
      · rw [if_neg hnil]
        refine ⟨?_, ?_, ?_, hnil⟩
        · intro hmem
          exact absurd rfl (mem_strippedName name _ (mem_capped _ _ _ hmem)).1
        · intro hmem
          exact absurd rfl (mem_strippedName name _ (mem_capped _ _ _ hmem)).2.1
        · intro hmem
          exact absurd rfl (mem_strippedName name _ (mem_capped _ _ _ hmem)).2.2
    · intro hle
      omega
  · rw [if_neg hcap]
    by_cases hnil : strippedName name = []
    · rw [if_pos hnil]
      constructor
      · refine ⟨?_, ?_, ?_, ?_⟩
        · intro hmem
          exact absurd rfl (mem_fallback now _ hmem).1
        · intro hmem
          exact absurd rfl (mem_fallback now _ hmem).2.1
        · intro hmem
          exact absurd rfl (mem_fallback now _ hmem).2.2.1
        · intro hemp
          have : ("file_".toList ++ natDigits now).length = 0 := by rw [hemp]; rfl
          simp [List.length_append] at this
      · intro hle255
        refine ⟨?_, ?_, ?_⟩
        · exact hasDotDot_of_no_dot _ (fun c hc => (mem_fallback now c hc).2.2.2)
        · intro c hc
          have : c = 'f' := by
            have hh : ("file_".toList ++ natDigits now).head? = some ('f') := rfl
            rw [hh] at hc
            injection hc with h2
            exact h2.symm
          rw [this]
          decide
        · rw [List.length_append]
          have h5 : ("file_".toList).length = 5 := rfl
          have h16 := natDigits_length_le now hnow
          omega
    · rw [if_neg hnil]
      constructor
      · refine ⟨?_, ?_, ?_, hnil⟩
        · intro hmem
          exact absurd rfl (mem_strippedName name _ hmem).1
        · intro hmem
          exact absurd rfl (mem_strippedName name _ hmem).2.1
        · intro hmem
          exact absurd rfl (mem_strippedName name _ hmem).2.2
      · intro hle255
        refine ⟨?_, ?_, hle255⟩
        · unfold strippedName
          exact hasDotDot_dropWhile _ _ (hasDotDot_removeDotDot _)
        · intro c hc
          have hp := head_dropWhile_false (fun c => c == '.') _ c hc
          simpa using hp

set_option maxRecDepth 40000 in
/-- C6 counterexample: on the 256-character name `"x." ++ "a"*254` the
length cap computes a negative slice end (the extension is 255
characters long), `slice(0, -5)` keeps 251 characters, and the result
is 506 characters long — the claimed 255-character bound fails. -/
theorem sanitizeFileName_counterexample :
    255 < (sanitizeFileName 0 ('x' :: '.' :: List.replicate 254 ('a'))).length := by
  decide

/-- C6 amended-claim witness: the theorem applied to the short name
`a.txt` (no cap): clean characters, no `..`, no leading dot, length
within bound. -/
theorem sanitizeFileName_spec_witness :
    '/' ∉ sanitizeFileName 0 ("a.txt").toList ∧
    sanitizeFileName 0 ("a.txt").toList ≠ [] ∧
    hasDotDot (sanitizeFileName 0 ("a.txt").toList) = false ∧
    (sanitizeFileName 0 ("a.txt").toList).length ≤ 255 := by
  obtain ⟨h1, h2⟩ := sanitizeFileName_spec 0 ("a.txt".toList) (by norm_num)
  obtain ⟨h3, h4, h5⟩ := h2 (by decide)
  exact ⟨h1.1, h1.2.2.2, h3, h5⟩

end WifiShare
